import Mathlib

/-!
Verification of the telemetry-to-control pipeline of an MPC driving
controller (`src/main.cpp`) against its natural-language specification.
The C++ code is shallowly embedded: `double` arithmetic is modelled by
real numbers, `std::string` by `String` / `List Char`, and the external
collaborators (JSON parsing, the Eigen QR solver, the MPC optimizer) are
abstracted as parameters, since only their input/output positions matter
to the properties below.
-/

namespace MPCBridge

/-- Wheelbase-like constant `Lf = 2.67` from the source. -/
noncomputable def Lf : ℝ := 2.67

/-- Function `deg2rad` from the source: `x * pi() / 180`. -/
noncomputable def deg2rad (x : ℝ) : ℝ := x * Real.pi / 180

/-- Does `pat` occur at the head of `s`?  Helper for the `std::string`
search functions used by `hasData`. -/
def leadsWith : List Char → List Char → Bool
  | [], _ => true
  | _ :: _, [] => false
  | c :: cs, d :: ds => c == d && leadsWith cs ds

/-- C++ `std::string::find`: index of the first occurrence of `pat` in the
string, `none` standing for `npos`. -/
def findSub (pat : List Char) : List Char → Option ℕ
  | [] => if leadsWith pat [] then some 0 else none
  | c :: rest =>
    if leadsWith pat (c :: rest) then some 0
    else (findSub pat rest).map (fun i => i + 1)

/-- C++ `std::string::rfind`: index of the last occurrence of `pat`,
`none` standing for `npos`. -/
def rfindSub (pat : List Char) : List Char → Option ℕ
  | [] => if leadsWith pat [] then some 0 else none
  | c :: rest =>
    match rfindSub pat rest with
    | some i => some (i + 1)
    | none => if leadsWith pat (c :: rest) then some 0 else none

/-- Function `hasData` from the source: the empty string if `"null"` occurs, else the
substring `s.substr(b1, b2 - b1 + 2)` when both the first `[` and the last
`\x7d]` are found, else the empty string.  The `substr` length argument is
computed modulo `2^64` exactly as C++ `size_t` arithmetic does. -/
def hasData (s : String) : String :=
  let cs := s.data
  let found_null := findSub "null".data cs
  let b1 := findSub "[".data cs
  let b2 := rfindSub "\x7d]".data cs
  match found_null with
  | some _ => ""
  | none =>
    match b1, b2 with
    | some i, some j =>
      String.mk ((cs.drop i).take ((j + 2 + 18446744073709551616 - i) % 18446744073709551616))
    | _, _ => ""

/-- Outcome of one `onMessage` invocation: the telemetry pipeline ran and a
"steer" event was sent (its numeric content comes from the solver), a fixed
literal message was sent, or no outbound message at all. -/
inductive Response where
  | steerResponse : Response
  | sent : String → Response
  | noResponse : Response
  deriving DecidableEq

/-- The event-dispatch logic of the `onMessage` lambda (lines 81-212 of the
source).  JSON parsing plus `j[0].get<string>()` belong to the external
serialization collaborator and are abstracted by `parseEvent`. -/
def onMessageDispatch (parseEvent : String → String) (sdata : String) : Response :=
  if 2 < sdata.length ∧ sdata.data.getD 0 ' ' = '4' ∧ sdata.data.getD 1 ' ' = '2' then
    let s := hasData sdata
    if s ≠ "" then
      if parseEvent s = "telemetry" then Response.steerResponse
      else Response.noResponse
    else Response.sent "42[\"manual\",\x7b\x7d]"
  else Response.noResponse

/-- Function `polyeval` from the source: the accumulation loop
`result += coeffs[i] * pow(x, i)` over `i < coeffs.size()`. -/
noncomputable def polyeval (coeffs : List ℝ) (x : ℝ) : ℝ :=
  (List.range coeffs.length).foldl (fun result i => result + coeffs.getD i 0 * x ^ i) 0

/-- Cross-track error as computed in the source: `polyeval(coeffs, 0)`. -/
noncomputable def cteOf (coeffs : List ℝ) : ℝ := polyeval coeffs 0

/-- Orientation error as computed in the source: `-atan(coeffs[1])`. -/
noncomputable def epsiOf (coeffs : List ℝ) : ℝ := -Real.arctan (coeffs.getD 1 0)

/-- The latency-compensated initial state built at lines 133-141 of the
source: `state << px, py, psi, v, cte, epsi` with `dt = 0.1`, from the
telemetry speed `v`, the estimated errors `cte`, `epsi`, and the previous
actuator commands `steer_value`, `throttle_value`. -/
noncomputable def latencyState (v cte epsi steer_value throttle_value : ℝ) : List ℝ :=
  let dt : ℝ := 0.1
  let px := v * dt
  let py : ℝ := 0.0
  let psi := -v * steer_value / Lf * dt
  let cte2 := cte + (v * Real.sin epsi * dt)
  let epsi2 := epsi - v * steer_value / Lf * dt
  let v2 := v + throttle_value * dt
  [px, py, psi, v2, cte2, epsi2]

/-- One step of the world-to-car coordinate transform loop
(lines 104-111 of the source). -/
noncomputable def toCarPoint (px py psi : ℝ) (p : ℝ × ℝ) : ℝ × ℝ :=
  let dtx := p.1 - px
  let dty := p.2 - py
  (dtx * Real.cos psi + dty * Real.sin psi, dty * Real.cos psi - dtx * Real.sin psi)

/-- The transform loop applied to the whole waypoint list. -/
noncomputable def toCarSpace (px py psi : ℝ) (pts : List (ℝ × ℝ)) : List (ℝ × ℝ) :=
  pts.map (toCarPoint px py psi)

/-- Modelled from the spec: the body-to-world inverse of the Frame Transform
("inverse rotation + translation"), which has no counterpart in the source. -/
noncomputable def toWorldPoint (px py psi : ℝ) (p : ℝ × ℝ) : ℝ × ℝ :=
  (px + p.1 * Real.cos psi - p.2 * Real.sin psi,
   py + p.1 * Real.sin psi + p.2 * Real.cos psi)

/-- Function `polyfit` from the source.  The two `assert`s become the `none` branch;
the Vandermonde rows `A(j, i) = xvals(j)^i` are built as in the source, and
the external Eigen QR solve is a parameter.  Sizes are compared as signed
integers, as `Eigen::Index` and `int` are in C++. -/
noncomputable def polyfit (solve : List (List ℝ) → List ℝ → List ℝ)
    (xvals yvals : List ℝ) (order : ℤ) : Option (List ℝ) :=
  if (xvals.length : ℤ) = (yvals.length : ℤ) ∧ 1 ≤ order ∧ order ≤ (xvals.length : ℤ) - 1 then
    some (solve (xvals.map (fun x => (List.range (order.toNat + 1)).map (fun i => x ^ i))) yvals)
  else none

/-- One iteration of the `mpc_x`/`mpc_y` pairing loop: `push_back` onto the
even or the odd side. -/
def mpcStep (vars : List ℝ) (acc : List ℝ × List ℝ) (i : ℕ) : List ℝ × List ℝ :=
  if i % 2 = 0 then (acc.1 ++ [vars.getD i 0], acc.2)
  else (acc.1, acc.2 ++ [vars.getD i 0])

/-- The pairing loop `for (i = 2; i < vars.size(); i++)` from lines 162-172
of the source. -/
def mpcXY (vars : List ℝ) : List ℝ × List ℝ :=
  (List.range' 2 (vars.length - 2)).foldl (mpcStep vars) ([], [])

/-- The outbound "steer" payload fields decoded from the optimizer result. -/
structure SteerResponse where
  steering_angle : ℝ
  throttle : ℝ
  mpc_x : List ℝ
  mpc_y : List ℝ

/-- The result-decoding part of the telemetry branch (lines 146-175 of the
source): sign-flipped normalized steering, pass-through throttle, and the
paired trajectory lists. -/
noncomputable def buildResponse (vars : List ℝ) : SteerResponse :=
  let steer_value := -(vars.getD 0 0)
  let throttle_value := vars.getD 1 0
  let xy := mpcXY vars
  { steering_angle := steer_value / (deg2rad 25 * Lf)
    throttle := throttle_value
    mpc_x := xy.1
    mpc_y := xy.2 }

/-! ## Helper lemmas -/

lemma leadsWith_le_length (pat : List Char) :
    ∀ l : List Char, leadsWith pat l = true → pat.length ≤ l.length := by
  induction pat with
  | nil => intro l _; simp
  | cons c cs ih =>
    intro l h
    cases l with
    | nil => simp [leadsWith] at h
    | cons d ds =>
      simp only [leadsWith, Bool.and_eq_true] at h
      have := ih ds h.2
      simp only [List.length_cons]
      omega

lemma findSub_bound (pat : List Char) :
    ∀ (l : List Char) (i : ℕ), findSub pat l = some i → i + pat.length ≤ l.length := by
  intro l
  induction l with
  | nil =>
    intro i h
    rw [findSub] at h
    split at h
    · rename_i hlw
      have := leadsWith_le_length pat [] hlw
      cases h
      simpa using this
    · exact absurd h (by simp)
  | cons c rest ih =>
    intro i h
    rw [findSub] at h
    split at h
    · rename_i hlw
      have := leadsWith_le_length pat (c :: rest) hlw
      cases h
      simpa using this
    · cases hf : findSub pat rest with
      | none => rw [hf] at h; simp at h
      | some j =>
        rw [hf] at h
        simp at h
        have := ih j hf
        simp only [List.length_cons]
        omega

lemma leadsWith42_chars (l : List Char) (h : leadsWith "42".data l = true) :
    l.getD 0 ' ' = '4' ∧ l.getD 1 ' ' = '2' := by
  rw [show ("42".data) = ['4', '2'] from rfl] at h
  cases l with
  | nil => simp [leadsWith] at h
  | cons c t =>
    cases t with
    | nil => simp [leadsWith] at h
    | cons d t2 =>
      simp only [leadsWith, Bool.and_eq_true, beq_iff_eq] at h
      simp [List.getD, h.1.symm, h.2.1.symm]

lemma mpcFold_lengths (vars : List ℝ) :
    ∀ (l : List ℕ) (a b : List ℝ),
      (l.foldl (mpcStep vars) (a, b)).1.length
          = a.length + l.countP (fun i => i % 2 == 0) ∧
      (l.foldl (mpcStep vars) (a, b)).2.length
          = b.length + l.countP (fun i => i % 2 == 1) := by
  intro l
  induction l with
  | nil => intro a b; simp
  | cons i l ih =>
    intro a b
    rw [List.foldl_cons, List.countP_cons, List.countP_cons]
    by_cases hp : i % 2 = 0
    · rw [show mpcStep vars (a, b) i = (a ++ [vars.getD i 0], b) from by simp [mpcStep, hp]]
      rcases ih (a ++ [vars.getD i 0]) b with ⟨h1, h2⟩
      rw [h1, h2]
      simp only [List.length_append, List.length_singleton, hp]
      constructor <;> simp <;> omega
    · have hp1 : i % 2 = 1 := Nat.mod_two_eq_zero_or_one i |>.resolve_left hp
      rw [show mpcStep vars (a, b) i = (a, b ++ [vars.getD i 0]) from by simp [mpcStep, hp]]
      rcases ih a (b ++ [vars.getD i 0]) with ⟨h1, h2⟩
      rw [h1, h2]
      simp only [List.length_append, List.length_singleton, hp1]
      constructor <;> simp [hp] <;> omega

lemma countP_parity_range' :
    ∀ k : ℕ, (List.range' 2 k).countP (fun i => i % 2 == 0) = (k + 1) / 2 ∧
             (List.range' 2 k).countP (fun i => i % 2 == 1) = k / 2 := by
  intro k
  induction k with
  | zero => simp
  | succ k ih =>
    rcases ih with ⟨ih1, ih2⟩
    rw [List.range'_concat, List.countP_append, List.countP_append, ih1, ih2]
    simp only [List.countP_cons, List.countP_nil]
    rcases Nat.mod_two_eq_zero_or_one k with hk | hk
    · have he : (2 + 1 * k) % 2 = 0 := by omega
      rw [he]
      constructor <;> simp <;> omega
    · have he : (2 + 1 * k) % 2 = 1 := by omega
      rw [he]
      constructor <;> simp <;> omega

/-! ## Claim theorems -/

/-- C1: for every telemetry sample with speed `v`, cross-track error `cte`,
heading error `epsi`, previous steering `delta` and previous throttle `a`,
with `L = 2.67` and `dt = 0.1`, the Control State handed to the optimizer is
`[v*dt, 0, -v*delta/L*dt, v + a*dt, cte + v*sin(epsi)*dt, epsi - v*delta/L*dt]`. -/
theorem latency_state_spec (v cte epsi delta a : ℝ) :
    latencyState v cte epsi delta a =
      [v * 0.1, 0, -v * delta / 2.67 * 0.1, v + a * 0.1,
       cte + v * Real.sin epsi * 0.1, epsi - v * delta / 2.67 * 0.1] := by
  simp [latencyState, Lf]
  norm_num

/-- C2: the world-to-body Frame Transform maps the `i`-th waypoint `(wx, wy)`
to exactly `((wx-px)*cos psi + (wy-py)*sin psi, (wy-py)*cos psi - (wx-px)*sin psi)`,
preserving order and length of the input sequence. -/
theorem frame_transform_spec (px py psi : ℝ) (pts : List (ℝ × ℝ)) :
    (toCarSpace px py psi pts).length = pts.length ∧
    ∀ i : ℕ, (toCarSpace px py psi pts)[i]? = (pts[i]?).map (fun w =>
      ((w.1 - px) * Real.cos psi + (w.2 - py) * Real.sin psi,
       (w.2 - py) * Real.cos psi - (w.1 - px) * Real.sin psi)) := by
  constructor
  · simp [toCarSpace]
  · intro i
    cases h : pts[i]? with
    | none => simp [toCarSpace, List.getElem?_map, h]
    | some w => simp [toCarSpace, List.getElem?_map, h, toCarPoint]

/-- C3: for a coefficient vector `[c0, c1, c2, c3]`, the computed cross-track
error is exactly `c0` (polynomial evaluation at `x = 0` reduces to the
constant term) and the computed heading error is `-atan c1`. -/
theorem error_estimator_spec (c0 c1 c2 c3 : ℝ) :
    cteOf [c0, c1, c2, c3] = c0 ∧ epsiOf [c0, c1, c2, c3] = -Real.arctan c1 := by
  constructor
  · show polyeval [c0, c1, c2, c3] 0 = c0
    rw [polyeval]
    norm_num [List.range_succ]
  · simp [epsiOf]

/-- C4: for an optimizer result `[s, t, x1, y1, x2, y2]`, the emitted
trajectory is `mpc_x = [x1, x2]`, `mpc_y = [y1, y2]`, the throttle is `t`,
and the steering angle is `-s / (deg2rad 25 * 2.67)`. -/
theorem response_builder_spec (s t x1 y1 x2 y2 : ℝ) :
    buildResponse [s, t, x1, y1, x2, y2] =
      ⟨-s / (deg2rad 25 * 2.67), t, [x1, x2], [y1, y2]⟩ := by
  simp [buildResponse, mpcXY, mpcStep, Lf, List.range', List.getD]

/-- C5 counterexample: on the odd-length optimizer result `[1, 2, 3, 4, 5]`
the pairing loop raises no error at all; it emits `mpc_x = [3, 5]` and
`mpc_y = [4]`, placing the last value into `mpc_x` with no partner, so the
emitted lists have different lengths. -/
theorem response_odd_cex :
    ([1, 2, 3, 4, 5] : List ℝ).length % 2 = 1 ∧
    mpcXY [1, 2, 3, 4, 5] = ([3, 5], [4]) ∧
    (mpcXY [1, 2, 3, 4, 5]).1.length ≠ (mpcXY [1, 2, 3, 4, 5]).2.length := by
  refine ⟨by simp, ?_, ?_⟩
  · simp [mpcXY, mpcStep, List.range', List.getD]
  · simp [mpcXY, mpcStep, List.range', List.getD]

/-- C5 amended: for every optimizer result of odd length at least 3 the
Response Builder does not reject; it emits trajectory lists in which `mpc_x`
has exactly one more element than `mpc_y` (the final value is appended to
`mpc_x` without a partner). -/
theorem response_odd_lengths (vars : List ℝ)
    (hodd : vars.length % 2 = 1) (hlen : 3 ≤ vars.length) :
    (mpcXY vars).1.length = (mpcXY vars).2.length + 1 := by
  rw [mpcXY]
  rcases mpcFold_lengths vars (List.range' 2 (vars.length - 2)) [] [] with ⟨h1, h2⟩
  rcases countP_parity_range' (vars.length - 2) with ⟨hc1, hc2⟩
  rw [h1, h2, hc1, hc2]
  simp only [List.length_nil]
  omega

/-- Witness for C5's amended theorem at the concrete input `[1, 2, 3, 4, 5]`. -/
theorem response_odd_lengths_witness :
    (([1, 2, 3, 4, 5] : List ℝ).length % 2 = 1 ∧ 3 ≤ ([1, 2, 3, 4, 5] : List ℝ).length) ∧
    (mpcXY [1, 2, 3, 4, 5]).1.length = (mpcXY [1, 2, 3, 4, 5]).2.length + 1 :=
  ⟨⟨by simp, by simp⟩, response_odd_lengths [1, 2, 3, 4, 5] (by simp) (by simp)⟩

/-- C6: `polyfit` reports an error (returns no coefficient vector) whenever
the input length is at most the requested degree or the two input lengths
differ, for any external solver. -/
theorem polyfit_guard (solve : List (List ℝ) → List ℝ → List ℝ)
    (xvals yvals : List ℝ) (order : ℤ)
    (h : (xvals.length : ℤ) ≤ order ∨ xvals.length ≠ yvals.length) :
    polyfit solve xvals yvals order = none := by
  rw [polyfit, if_neg]
  rintro ⟨h1, h2, h3⟩
  rcases h with h | h <;> omega

/-- Witness for C6 at `xvals = yvals = [0, 1]`, degree 3. -/
theorem polyfit_guard_witness :
    ((([0, 1] : List ℝ).length : ℤ) ≤ 3 ∨
      ([0, 1] : List ℝ).length ≠ ([0, 1] : List ℝ).length) ∧
    polyfit (fun _ _ => []) [0, 1] [0, 1] 3 = none :=
  ⟨Or.inl (by simp), polyfit_guard (fun _ _ => []) [0, 1] [0, 1] 3 (Or.inl (by simp))⟩

/-- C7 counterexample: with previous steering 0 and previous throttle 0 but
`v = 1`, `cte = 0`, `epsi = π/2`, the cross-track-error entry of the
latency-compensated state is `0.1`, not the input value `0`: the state is
not left unchanged apart from the position component. -/
theorem latency_coast_cex :
    (latencyState 1 0 (Real.pi / 2) 0 0).getD 4 0 ≠ (0 : ℝ) := by
  simp [latencyState, List.getD, Real.sin_pi_div_two]
  norm_num

/-- C7 amended: for previous steering 0 and previous throttle 0, the
compensated state keeps `y`, heading, speed and heading error at their input
values, while `x' = v * 0.1` and the cross-track error still advances to
`cte + v * sin(epsi) * 0.1`. -/
theorem latency_coast (v cte epsi : ℝ) :
    latencyState v cte epsi 0 0 =
      [v * 0.1, 0, 0, v, cte + v * Real.sin epsi * 0.1, epsi] := by
  simp [latencyState, Lf]
  norm_num

/-- C8: for any heading in `[-π, π]` and any translation, mapping the
world-to-body transform and then the spec's body-to-world inverse over a
list of points reproduces the original list. -/
theorem frame_round_trip (px py psi : ℝ) (pts : List (ℝ × ℝ))
    (h1 : -Real.pi ≤ psi) (h2 : psi ≤ Real.pi) :
    (toCarSpace px py psi pts).map (toWorldPoint px py psi) = pts := by
  have hpt : ∀ q : ℝ × ℝ, toWorldPoint px py psi (toCarPoint px py psi q) = q := by
    intro q
    have hs := Real.sin_sq_add_cos_sq psi
    rw [toCarPoint, toWorldPoint, Prod.ext_iff]
    constructor
    · show px + ((q.1 - px) * Real.cos psi + (q.2 - py) * Real.sin psi) * Real.cos psi -
        ((q.2 - py) * Real.cos psi - (q.1 - px) * Real.sin psi) * Real.sin psi = q.1
      linear_combination (q.1 - px) * hs
    · show py + ((q.1 - px) * Real.cos psi + (q.2 - py) * Real.sin psi) * Real.sin psi +
        ((q.2 - py) * Real.cos psi - (q.1 - px) * Real.sin psi) * Real.cos psi = q.2
      linear_combination (q.2 - py) * hs
  rw [toCarSpace, List.map_map]
  have hfun : (toWorldPoint px py psi ∘ toCarPoint px py psi) = id := funext hpt
  rw [hfun, List.map_id]

/-- Witness for C8 at heading 0, translation (3, 4), a single point (1, 2). -/
theorem frame_round_trip_witness :
    (-Real.pi ≤ (0 : ℝ) ∧ (0 : ℝ) ≤ Real.pi) ∧
    (toCarSpace 3 4 0 [(1, 2)]).map (toWorldPoint 3 4 0) = [(1, 2)] :=
  ⟨⟨by linarith [Real.pi_pos], by linarith [Real.pi_pos]⟩,
    frame_round_trip 3 4 0 [(1, 2)] (by linarith [Real.pi_pos]) (by linarith [Real.pi_pos])⟩

/-- C9 counterexample: the well-formed non-telemetry event
`42["manual",{}]` (parsed tag "manual") produces no outbound message at all;
in particular the fixed manual acknowledgement is not sent. -/
theorem dispatch_manual_cex :
    onMessageDispatch (fun _ => "manual") "42[\"manual\",\x7b\x7d]" = Response.noResponse ∧
    Response.noResponse ≠ Response.sent "42[\"manual\",\x7b\x7d]" := by
  constructor
  · decide
  · decide

/-- C9 amended: the Cycle Controller stays silent on every message that
starts with "42" and carries a bracketed payload whose parsed tag is not
"telemetry"; the manual acknowledgement is reserved for messages on which
`hasData` returns the empty string. -/
theorem dispatch_non_telemetry (parseEvent : String → String) (sdata : String)
    (hpre : 2 < sdata.length ∧ sdata.data.getD 0 ' ' = '4' ∧ sdata.data.getD 1 ' ' = '2')
    (hdata : hasData sdata ≠ "")
    (hev : parseEvent (hasData sdata) ≠ "telemetry") :
    onMessageDispatch parseEvent sdata = Response.noResponse := by
  rw [onMessageDispatch, if_pos hpre]
  simp only [hdata, hev]
  simp [hdata, hev]

/-- Witness for C9's amended theorem at the concrete event `42["manual",{}]`. -/
theorem dispatch_non_telemetry_witness :
    ((2 < ("42[\"manual\",\x7b\x7d]" : String).length ∧
        ("42[\"manual\",\x7b\x7d]" : String).data.getD 0 ' ' = '4' ∧
        ("42[\"manual\",\x7b\x7d]" : String).data.getD 1 ' ' = '2') ∧
      hasData "42[\"manual\",\x7b\x7d]" ≠ "" ∧
      (fun _ : String => "manual") (hasData "42[\"manual\",\x7b\x7d]") ≠ "telemetry") ∧
    onMessageDispatch (fun _ => "manual") "42[\"manual\",\x7b\x7d]" = Response.noResponse :=
  ⟨⟨by decide, by decide, by decide⟩,
    dispatch_non_telemetry (fun _ => "manual") "42[\"manual\",\x7b\x7d]"
      (by decide) (by decide) (by decide)⟩

/-- C10: every inbound message that starts with "42" and contains the
substring "null" anywhere makes `hasData` return the empty string, so the
controller takes the manual branch and sends the fixed acknowledgement
`42["manual",{}]`, whatever the payload would have parsed to. -/
theorem dispatch_null_manual (parseEvent : String → String) (sdata : String)
    (h42 : leadsWith "42".data sdata.data = true)
    (hnull : findSub "null".data sdata.data ≠ none) :
    hasData sdata = "" ∧
    onMessageDispatch parseEvent sdata = Response.sent "42[\"manual\",\x7b\x7d]" := by
  obtain ⟨i, hi⟩ : ∃ i, findSub "null".data sdata.data = some i := by
    cases h : findSub "null".data sdata.data with
    | none => exact absurd h hnull
    | some j => exact ⟨j, rfl⟩
  have hempty : hasData sdata = "" := by
    rw [hasData]
    simp [hi]
  refine ⟨hempty, ?_⟩
  rcases leadsWith42_chars sdata.data h42 with ⟨hc0, hc1⟩
  have hb := findSub_bound "null".data sdata.data i hi
  have hlen : 2 < sdata.length := by
    have h4 : ("null".data).length = 4 := rfl
    have hL : sdata.length = sdata.data.length := rfl
    omega
  rw [onMessageDispatch, if_pos ⟨hlen, hc0, hc1⟩]
  simp [hempty]

/-- Witness for C10 at the concrete message `42null` (the parse function is
even allowed to claim the tag is "telemetry"). -/
theorem dispatch_null_manual_witness :
    (leadsWith "42".data ("42null" : String).data = true ∧
      findSub "null".data ("42null" : String).data ≠ none) ∧
    (hasData "42null" = "" ∧
      onMessageDispatch (fun _ => "telemetry") "42null" =
        Response.sent "42[\"manual\",\x7b\x7d]") :=
  ⟨⟨by decide, by decide⟩,
    dispatch_null_manual (fun _ => "telemetry") "42null" (by decide) (by decide)⟩

end MPCBridge
